import Mathlib

/-! Verification of the run/flow resolution and dispatch logic of the OpenLane
command-line entry point (`openlane/__main__.py`).

The Python function `cli` is embedded shallowly: the external collaborators
(configuration builder, flow registry, state deserializer, filesystem, flow
engine) are modelled as an `Env` record holding the data they would return,
and `cli` is a pure function from the parsed options and this environment to
an `Outcome` that records the observable behaviour of the process: the
sequence of externally visible actions (`events`), the diagnostics written to
the error stream (`errs`), log/warning text, whether an uncaught exception
terminated the interpreter, and the final exit code.
-/

namespace OpenLane

/-- An opaque deserialized pipeline state (payload of `State.loads`). -/
abbrev StateV := String

/-- A flow description, as typed by the specification (§3): either a
registered flow name or an ordered list of step identifiers. -/
inductive FlowDesc where
  | name (s : String)
  | steps (l : List String)
deriving DecidableEq

/-- The slice of the loaded configuration object that `cli` inspects:
`config_in.meta.flow`. -/
structure Config where
  meta_flow : FlowDesc
deriving DecidableEq

/-- Payload of an `InvalidConfig` exception raised by `ConfigBuilder.load`:
the configuration being loaded, a list of errors and a list of warnings. -/
structure ConfigError where
  config : String
  errors : List String
  warnings : List String
deriving DecidableEq

/-- Result of the `ConfigBuilder.load` call (lines 113-134): a configuration
plus design directory, or one of the two caught exception kinds. -/
inductive LoadResult where
  | ok (cfg : Config) (design_dir : String)
  | invalidConfig (e : ConfigError)
  | valueError (msg : String)
deriving DecidableEq

/-- Result of the `flow.start` call (lines 173-187): normal return, a
`FlowException` (unexpected internal engine error) or a `FlowError`
(expected pipeline failure). -/
inductive StartOutcome where
  | ok
  | flowException (msg : String)
  | flowError (msg : String)
deriving DecidableEq

/-- The keyword arguments passed to `flow.start` (lines 174-179).
`to_step` embeds the Python keyword argument `to` (a Lean keyword). -/
structure StartArgs where
  tag : Option String
  frm : Option String
  to_step : Option String
  with_initial_state : Option StateV
deriving DecidableEq

/-- Externally visible actions performed by `cli`, in program order. -/
inductive Event where
  | configLoadAttempt
  | makeSequentialFlow (steps : List String)
  | registryLookup (s : String)
  | flowInstantiated
  | stateFileRead (path : String)
  | runsEnumerated
  | flowStarted (args : StartArgs)
deriving DecidableEq

/-- The observable behaviour of one invocation: events in order, messages
written through `err`, `log` and `warn`, an uncaught-exception marker, and
the process exit code (0 when `cli` returns normally). -/
structure Outcome where
  events : List Event
  errs : List String
  logs : List String
  warns : List String
  uncaught : Option String
  exitCode : Nat
deriving DecidableEq

/-- The parsed command-line options received by `cli` (lines 95-107).
`to_step` embeds the Python parameter `to` (a Lean keyword). -/
structure Opts where
  flow_name : Option String
  pdk_root : Option String
  pdk : String
  scl : Option String
  config_file : String
  run_tag : Option String
  last_run : Bool
  frm : Option String
  to_step : Option String
  initial_state_json : Option String
  config_override_strings : List String
deriving DecidableEq

/-- The environment: what each external collaborator would answer during
this invocation.  `configLoad` is the outcome of `ConfigBuilder.load`;
`registry` is `Flow.factory.list()`; `readState path` is the combined
result of `open(path).read()` plus `State.loads` (errors of either kind are
uncaught Python exceptions); `runs` is the `glob` enumeration of
`design_dir/runs/*` paired with the `os.path.getmtime` of each entry, in
enumeration order; `startResult` is what `flow.start` does. -/
structure Env where
  configLoad : LoadResult
  registry : List String
  readState : String → Except String StateV
  runs : List (String × Nat)
  startResult : StartOutcome

/-- Embedding of `os.path.basename`: the final path component, everything after the
last slash (empty when the path ends in a slash). -/
def basename (s : String) : String :=
  String.mk ((s.data.reverse.takeWhile (fun c => c ≠ '/')).reverse)

/-- Line 136: `flow_description = flow_name or config_in.meta.flow`.
Python `or` falls through both on `None` and on the empty string (which is
falsy), so an explicit empty flow name also selects the metadata value. -/
def flow_description (flow_name : Option String) (meta_flow : FlowDesc) : FlowDesc :=
  match flow_name with
  | some s => if s = "" then meta_flow else FlowDesc.name s
  | none => meta_flow

/-- ASCII lowercasing of one character (the case folding used for flow-name
comparison). -/
def lowerChar (c : Char) : Char :=
  if 65 ≤ c.toNat ∧ c.toNat ≤ 90 then Char.ofNat (c.toNat + 32) else c

/-- ASCII lowercasing of a string, character by character. -/
def toLowerStr (s : String) : String :=
  String.mk (s.data.map lowerChar)

/-- Modelled from the spec: `Flow.factory.get` (the flow registry lives in
`openlane.flows`, outside the visible source).  Per §4.2 the lookup matches
the requested name case-insensitively against the registered names; the
result stands for the flow class found, `none` when no name matches. -/
def factory_get (registry : List String) (s : String) : Option String :=
  registry.find? (fun r => toLowerStr r == toLowerStr s)

/-- Lines 159-165: the scan over the enumerated run directories.  Starting
from `latest_time = 0` and `latest_run = None`, each entry strictly newer
than the best so far replaces it.  Note the strict comparison against the
initial 0: an entry whose mtime is 0 can never be selected. -/
def selectLatest : List (String × Nat) → Nat → Option String → Option String
  | [], _, latest_run => latest_run
  | (run, time) :: rest, latest_time, latest_run =>
    if time > latest_time then selectLatest rest time (some run)
    else selectLatest rest latest_time latest_run

/-- The maximum mtime occurring in an enumeration (0 for the empty list). -/
def maxTime (l : List (String × Nat)) : Nat :=
  l.foldr (fun p acc => max p.2 acc) 0

/-- Diagnostic of line 110. -/
def mutexMsg : String := "--run-tag and --last-run are mutually exclusive."

/-- Diagnostic of lines 146-148. -/
def unknownFlowMsg (s : String) : String :=
  "Unknown flow \x27" ++ s ++ "\x27 specified in configuration\x27s \x27meta\x27 object."

/-- Diagnostic of line 168. -/
def noRunsMsg : String := "--last-run specified, but no runs found."

/-- Diagnostic of line 181 (`FlowException` caught). -/
def unexpectedErrMsg (m : String) : String :=
  "The flow has encountered an unexpected error: " ++ m

/-- Diagnostic of line 185 (`FlowError` caught). -/
def expectedErrMsg (m : String) : String :=
  "The following error was encountered while running the flow: " ++ m

/-- Diagnostic of lines 182 and 186. -/
def quitMsg : String := "OpenLane will now quit."

/-- Lines 173-187: the `flow.start` call inside its `try`.  `ev` are the
events already performed; the start arguments record exactly the keyword
arguments of the call. -/
def startFlow (o : Opts) (env : Env) (ev : List Event) (tag : Option String)
    (ist : Option StateV) : Outcome :=
  match env.startResult with
  | .ok =>
    ⟨ev ++ [.flowStarted ⟨tag, o.frm, o.to_step, ist⟩], [], [], [], none, 0⟩
  | .flowException m =>
    ⟨ev ++ [.flowStarted ⟨tag, o.frm, o.to_step, ist⟩],
      [unexpectedErrMsg m, quitMsg], [], [], none, 1⟩
  | .flowError m =>
    ⟨ev ++ [.flowStarted ⟨tag, o.frm, o.to_step, ist⟩],
      [expectedErrMsg m, quitMsg], [], [], none, 2⟩

/-- Lines 156-179: run-tag resolution (the `if last_run:` block) followed by
the dispatch.  When `last_run` is set the run directories are enumerated and
the basename of the most recently modified one becomes the tag; otherwise
the (possibly absent) user-supplied tag is passed through unchanged. -/
def afterState (o : Opts) (env : Env) (ev : List Event) (ist : Option StateV) :
    Outcome :=
  if o.last_run then
    match selectLatest env.runs 0 none with
    | none => ⟨ev ++ [.runsEnumerated], [noRunsMsg], [], [], none, 1⟩
    | some latest_run =>
      startFlow o env (ev ++ [.runsEnumerated]) (some (basename latest_run)) ist
  else startFlow o env ev o.run_tag ist

/-- Lines 151-154: flow instantiation followed by the optional initial-state
load.  A failing `open`/`State.loads` is an uncaught Python exception: the
interpreter prints a traceback and the process exits with status 1. -/
def afterFlow (o : Opts) (env : Env) (ev : List Event) : Outcome :=
  match o.initial_state_json with
  | none => afterState o env (ev ++ [.flowInstantiated]) none
  | some path =>
    match env.readState path with
    | .ok s =>
      afterState o env (ev ++ [.flowInstantiated, .stateFileRead path]) (some s)
    | .error m =>
      ⟨ev ++ [.flowInstantiated, .stateFileRead path], [], [], [], some m, 1⟩

/-- The body of `cli` (lines 95-187): mutual-exclusion check, configuration
load, flow resolution, then instantiation, state load, run resolution and
dispatch. -/
def cli (o : Opts) (env : Env) : Outcome :=
  if o.run_tag.isSome && o.last_run then
    ⟨[], [mutexMsg], [], [], none, 1⟩
  else
    match env.configLoad with
    | .invalidConfig e =>
      ⟨[.configLoadAttempt], e.errors,
        ("Errors have occurred while loading the " ++ e.config ++ ":") ::
          (if e.warnings.length > 0 then
            ["The following warnings have also been generated:",
             "OpenLane will now quit. Please check your configuration."]
          else ["OpenLane will now quit. Please check your configuration."]),
        e.warnings, none, 1⟩
    | .valueError m => ⟨[.configLoadAttempt], [m], [quitMsg], [], none, 1⟩
    | .ok cfg _design_dir =>
      match flow_description o.flow_name cfg.meta_flow with
      | .steps l => afterFlow o env [.configLoadAttempt, .makeSequentialFlow l]
      | .name s =>
        match factory_get env.registry s with
        | some _ => afterFlow o env [.configLoadAttempt, .registryLookup s]
        | none =>
          ⟨[.configLoadAttempt, .registryLookup s], [unknownFlowMsg s],
            [], [], none, 1⟩

/-- Modelled from the option declaration in the source (lines 42-49):
`type=click.Choice(Flow.factory.list(), case_sensitive=False)`.  click
matches the given token case-insensitively against the registered names and
passes the registered spelling on to `cli`; the result is `none` when no
name matches, in which case click raises a `UsageError`. -/
def clickChoiceFlow (registry : List String) (given : String) : Option String :=
  registry.find? (fun r => toLowerStr r == toLowerStr given)

/-- Modelled from click: the invalid-value diagnostic a `click.Choice`
mismatch produces for the `-f`/`--flow` option, naming the rejected token. -/
def invalidChoiceMsg (s : String) : String :=
  "Invalid value for \x27-f\x27 / \x27--flow\x27: \x27" ++ s ++
    "\x27 is not one of the registered flow names."

/-- The full entry point: click first validates a supplied `--flow` value
against the registered flow names (case-insensitively); on a mismatch it
prints the invalid-value diagnostic and exits with the click usage-error
exit code 2 before `cli` runs; otherwise `cli` runs with the registered
spelling. -/
def main (o : Opts) (env : Env) : Outcome :=
  match o.flow_name with
  | none => cli o env
  | some given =>
    match clickChoiceFlow env.registry given with
    | some normalized => cli { o with flow_name := some normalized } env
    | none => ⟨[], [invalidChoiceMsg given], [], [], none, 2⟩

/-- Whether flow resolution succeeds (the invocation is not terminated at
lines 146-149): the chosen description is a step list, or a registered
name. -/
def flowResolvesB (o : Opts) (env : Env) (cfg : Config) : Bool :=
  match flow_description o.flow_name cfg.meta_flow with
  | .steps _ => true
  | .name s => (factory_get env.registry s).isSome

/-- Whether the optional initial-state load succeeds (no uncaught exception
at line 154). -/
def stateOkB (o : Opts) (env : Env) : Bool :=
  match o.initial_state_json with
  | none => true
  | some path =>
    match env.readState path with
    | .ok _ => true
    | .error _ => false

/-- The exit code produced once `flow.start` has been invoked, as a function
of what the call does. -/
def startExit : StartOutcome → Nat
  | .ok => 0
  | .flowException _ => 1
  | .flowError _ => 2

/-- A baseline invocation: defaults only, a config file, no run selectors. -/
def oBase : Opts :=
  ⟨none, none, "sky130A", none, "config.json", none, false, none, none, none, []⟩

/-- A baseline environment: the configuration loads, declaring flow
`Classic` in its metadata; `Classic` is the single registered flow; the
state file (if any) parses; two run directories exist, `RUN_B` more
recently modified; `flow.start` succeeds. -/
def envBase : Env :=
  ⟨LoadResult.ok ⟨FlowDesc.name "Classic"⟩ "designs/spm", ["Classic"],
    fun _ => Except.ok "st",
    [("designs/spm/runs/RUN_A", 5), ("designs/spm/runs/RUN_B", 9)],
    StartOutcome.ok⟩

/-- Baseline invocation with `--last-run`. -/
def oLast : Opts := { oBase with last_run := true }

/-- Baseline invocation with both `--run-tag` and `--last-run`. -/
def oBoth : Opts := { oBase with run_tag := some "mytag", last_run := true }

/-- Baseline invocation with `--run-tag my_run`. -/
def oTag : Opts := { oBase with run_tag := some "my_run" }

/-- Baseline invocation with an explicit empty `--flow` value. -/
def oEmptyFlow : Opts := { oBase with flow_name := some "" }

/-- Baseline invocation with an explicit `--flow` value differing from the
registered spelling only in case. -/
def oFlow : Opts := { oBase with flow_name := some "clAssIc" }

/-- Environment whose registry also contains the empty string as a
registered flow name (the registry is engine-owned external state; nothing
in the spec excludes it), so that the option parser admits `--flow ""`. -/
def envEmptyReg : Env := { envBase with registry := ["", "Classic"] }

/-- Baseline invocation with an explicit unregistered `--flow` value. -/
def oUnknownFlow : Opts := { oBase with flow_name := some "Funflow" }

/-- Baseline invocation with `--with-initial-state state.json`. -/
def oState : Opts := { oBase with initial_state_json := some "state.json" }

/-- Environment in which `flow.start` raises a `FlowError`. -/
def envFlowError : Env :=
  { envBase with startResult := StartOutcome.flowError "step failed" }

/-- Environment with a single run directory whose mtime is 0. -/
def envZeroMtime : Env :=
  { envBase with runs := [("designs/spm/runs/RUN_A", 0)] }

/-- Environment with two run directories, both with mtime 0. -/
def envTwoZero : Env :=
  { envBase with
    runs := [("designs/spm/runs/RUN_X", 0), ("designs/spm/runs/RUN_Y", 0)] }

/-- Environment with an empty `runs/` directory. -/
def envEmptyRuns : Env := { envBase with runs := [] }

/-- Environment whose configuration metadata declares a step-list flow. -/
def envSteps : Env :=
  { envBase with
    configLoad := LoadResult.ok ⟨FlowDesc.steps ["Synthesis", "Floorplan"]⟩
      "designs/spm" }

/-- Environment whose configuration metadata names an unregistered flow. -/
def envMetaUnknown : Env :=
  { envBase with
    configLoad := LoadResult.ok ⟨FlowDesc.name "Coolflow"⟩ "designs/spm" }

/-- Environment in which the initial-state file fails to read or parse. -/
def envBadState : Env :=
  { envBase with readState := fun _ => Except.error "bad json" }

theorem startFlow_events (o : Opts) (env : Env) (ev : List Event) (tag : Option String)
    (ist : Option StateV) :
    (startFlow o env ev tag ist).events =
      ev ++ [Event.flowStarted ⟨tag, o.frm, o.to_step, ist⟩] := by
  unfold startFlow
  cases env.startResult <;> rfl

theorem startFlow_exitCode (o : Opts) (env : Env) (ev : List Event) (tag : Option String)
    (ist : Option StateV) :
    (startFlow o env ev tag ist).exitCode = startExit env.startResult := by
  unfold startFlow startExit
  cases env.startResult <;> rfl

theorem startFlow_errs (o : Opts) (env : Env) (ev : List Event) (tag : Option String)
    (ist : Option StateV) :
    (startFlow o env ev tag ist).errs =
      match env.startResult with
      | .ok => []
      | .flowException m => [unexpectedErrMsg m, quitMsg]
      | .flowError m => [expectedErrMsg m, quitMsg] := by
  unfold startFlow
  cases env.startResult <;> rfl

theorem selectLatest_eq (l : List (String × Nat)) :
    ∀ (t : Nat) (acc : Option String),
      selectLatest l t acc =
        if t < maxTime l then (l.find? (fun p => p.2 == maxTime l)).map Prod.fst
        else acc := by
  induction l with
  | nil =>
    intro t acc
    simp [selectLatest, maxTime]
  | cons hd rest ih =>
    intro t acc
    obtain ⟨run, time⟩ := hd
    have hmax : maxTime ((run, time) :: rest) = max time (maxTime rest) := rfl
    rw [hmax]
    by_cases h1 : t < time
    · rw [selectLatest, if_pos (by omega : time > t), ih]
      by_cases h2 : time < maxTime rest
      · have hmr : max time (maxTime rest) = maxTime rest := by omega
        rw [if_pos h2, if_pos (by omega), hmr,
          List.find?_cons_of_neg _ (by simp; omega)]
      · have hmr : max time (maxTime rest) = time := by omega
        rw [if_neg h2, if_pos (by omega), hmr,
          List.find?_cons_of_pos _ (by simp)]
        rfl
    · rw [selectLatest, if_neg (by omega : ¬time > t), ih]
      by_cases h2 : t < maxTime rest
      · have hmr : max time (maxTime rest) = maxTime rest := by omega
        rw [if_pos h2, if_pos (by omega), hmr,
          List.find?_cons_of_neg _ (by simp; omega)]
      · rw [if_neg h2, if_neg (by omega)]

theorem le_maxTime (l : List (String × Nat)) : ∀ q ∈ l, q.2 ≤ maxTime l := by
  induction l with
  | nil => intro q hq; cases hq
  | cons hd rest ih =>
    intro q hq
    have hmax : maxTime (hd :: rest) = max hd.2 (maxTime rest) := rfl
    rcases List.mem_cons.mp hq with h | h
    · subst h; rw [hmax]; omega
    · have := ih q h; rw [hmax]; omega

theorem maxTime_le (l : List (String × Nat)) (n : Nat) (h : ∀ q ∈ l, q.2 ≤ n) :
    maxTime l ≤ n := by
  induction l with
  | nil => simp [maxTime]
  | cons hd rest ih =>
    have h1 : hd.2 ≤ n := h hd (List.mem_cons_self _ _)
    have h2 : maxTime rest ≤ n := ih (fun q hq => h q (List.mem_cons_of_mem _ hq))
    have hmax : maxTime (hd :: rest) = max hd.2 (maxTime rest) := rfl
    rw [hmax]; omega

theorem exists_mem_maxTime (l : List (String × Nat)) (h : 0 < maxTime l) :
    ∃ q ∈ l, q.2 = maxTime l := by
  induction l with
  | nil => simp [maxTime] at h
  | cons hd rest ih =>
    have hmax : maxTime (hd :: rest) = max hd.2 (maxTime rest) := rfl
    by_cases h2 : maxTime rest ≤ hd.2
    · exact ⟨hd, List.mem_cons_self _ _, by rw [hmax]; omega⟩
    · obtain ⟨q, hq, hq2⟩ := ih (by omega)
      exact ⟨q, List.mem_cons_of_mem _ hq, by rw [hmax]; omega⟩

theorem find?_eq_of_unique_max (l : List (String × Nat)) (p : String) (m : Nat) :
    (p, m) ∈ l → (∀ q ∈ l, q ≠ (p, m) → q.2 < m) →
    l.find? (fun q => q.2 == m) = some (p, m) := by
  induction l with
  | nil => intro h; cases h
  | cons hd rest ih =>
    intro hmem hlt
    by_cases hhd : hd = (p, m)
    · subst hhd
      rw [List.find?_cons_of_pos _ (by simp)]
    · have h2 : hd.2 < m := hlt hd (List.mem_cons_self _ _) hhd
      rw [List.find?_cons_of_neg _ (by simp; omega)]
      apply ih
      · rcases List.mem_cons.mp hmem with h | h
        · exact absurd h.symm hhd
        · exact h
      · intro q hq hne
        exact hlt q (List.mem_cons_of_mem _ hq) hne

theorem maxTime_eq_of_unique_max (l : List (String × Nat)) (p : String) (m : Nat)
    (hmem : (p, m) ∈ l) (hlt : ∀ q ∈ l, q ≠ (p, m) → q.2 < m) :
    maxTime l = m := by
  apply Nat.le_antisymm
  · apply maxTime_le
    intro q hq
    by_cases h : q = (p, m)
    · subst h; exact Nat.le_refl _
    · exact Nat.le_of_lt (hlt q hq h)
  · exact le_maxTime l (p, m) hmem

theorem takeWhile_append_cons (p : Char → Bool) (xs : List Char) (y : Char)
    (ys : List Char) (hx : ∀ x ∈ xs, p x = true) (hy : p y = false) :
    (xs ++ y :: ys).takeWhile p = xs := by
  induction xs with
  | nil => simp [List.takeWhile_cons, hy]
  | cons a as ih =>
    have ha : p a = true := hx a (List.mem_cons_self _ _)
    simp only [List.cons_append, List.takeWhile_cons, ha]
    rw [ih (fun x h => hx x (List.mem_cons_of_mem _ h))]
    simp

theorem basename_concat (d nm : String) (h : ∀ c ∈ nm.data, c ≠ '/') :
    basename (d ++ "/" ++ nm) = nm := by
  unfold basename
  have hdata : (d ++ "/" ++ nm).data = d.data ++ '/' :: nm.data := by
    rw [String.data_append, String.data_append, List.append_assoc]
    rfl
  rw [hdata, List.reverse_append, List.reverse_cons, List.append_assoc,
    List.singleton_append,
    takeWhile_append_cons _ _ _ _ (fun x hx => by
      simp only [decide_eq_true_eq]
      exact h x (List.mem_reverse.mp hx)) (by simp),
    List.reverse_reverse]

theorem ne_basename_concat (d nm : String) : nm ≠ d ++ "/" ++ nm := by
  intro he
  have hl := congrArg String.length he
  rw [String.length_append, String.length_append] at hl
  have : ("/" : String).length = 1 := rfl
  omega

theorem ne_of_shorter_than_prefix (a b m : String) (h : b.length < a.length) :
    b ≠ a ++ m := by
  intro he
  have hl := congrArg String.length he
  rw [String.length_append] at hl
  omega

theorem afterState_shape (o : Opts) (env : Env) (ev : List Event) (ist : Option StateV)
    (hev : ∀ a, Event.flowStarted a ∉ ev) :
    (∀ a, Event.flowStarted a ∉ (afterState o env ev ist).events) ∨
    ∃ ev2 tag, afterState o env ev ist = startFlow o env ev2 tag ist ∧
      (∀ a, Event.flowStarted a ∉ ev2) ∧
      ((o.last_run = false ∧ tag = o.run_tag) ∨
        (o.last_run = true ∧ ∃ sel, selectLatest env.runs 0 none = some sel ∧
          tag = some (basename sel))) := by
  unfold afterState
  split
  next hl =>
    split
    next hsel =>
      left
      intro a ha
      rcases List.mem_append.mp ha with h | h
      · exact hev a h
      · simp at h
    next sel hsel =>
      right
      refine ⟨ev ++ [Event.runsEnumerated], some (basename sel), rfl, ?_,
        Or.inr ⟨hl, sel, hsel, rfl⟩⟩
      intro a ha
      rcases List.mem_append.mp ha with h | h
      · exact hev a h
      · simp at h
  next hl =>
    right
    exact ⟨ev, o.run_tag, rfl, hev, Or.inl ⟨by simp at hl; exact hl, rfl⟩⟩

theorem afterFlow_shape (o : Opts) (env : Env) (ev : List Event)
    (hev : ∀ a, Event.flowStarted a ∉ ev) :
    (∀ a, Event.flowStarted a ∉ (afterFlow o env ev).events) ∨
    ∃ ev2 tag ist, afterFlow o env ev = startFlow o env ev2 tag ist ∧
      (∀ a, Event.flowStarted a ∉ ev2) ∧
      ((o.initial_state_json = none ∧ ist = none) ∨
        (∃ p s, o.initial_state_json = some p ∧ env.readState p = Except.ok s ∧
          ist = some s)) ∧
      ((o.last_run = false ∧ tag = o.run_tag) ∨
        (o.last_run = true ∧ ∃ sel, selectLatest env.runs 0 none = some sel ∧
          tag = some (basename sel))) := by
  unfold afterFlow
  split
  next hj =>
    have hev2 : ∀ a, Event.flowStarted a ∉ ev ++ [Event.flowInstantiated] := by
      intro a ha
      rcases List.mem_append.mp ha with h | h
      · exact hev a h
      · simp at h
    rcases afterState_shape o env (ev ++ [Event.flowInstantiated]) none hev2 with h | h
    · exact Or.inl h
    · obtain ⟨ev2, tag, heq, hev3, htag⟩ := h
      exact Or.inr ⟨ev2, tag, none, heq, hev3, Or.inl ⟨hj, rfl⟩, htag⟩
  next path hj =>
    split
    next s hr =>
      have hev2 : ∀ a, Event.flowStarted a ∉
          ev ++ [Event.flowInstantiated, Event.stateFileRead path] := by
        intro a ha
        rcases List.mem_append.mp ha with h | h
        · exact hev a h
        · simp at h
      rcases afterState_shape o env
          (ev ++ [Event.flowInstantiated, Event.stateFileRead path]) (some s) hev2 with
        h | h
      · exact Or.inl h
      · obtain ⟨ev2, tag, heq, hev3, htag⟩ := h
        exact Or.inr ⟨ev2, tag, some s, heq, hev3, Or.inr ⟨path, s, hj, hr, rfl⟩, htag⟩
    next m hr =>
      left
      intro a ha
      rcases List.mem_append.mp ha with h | h
      · exact hev a h
      · simp at h

theorem cli_shape (o : Opts) (env : Env) :
    (∀ a, Event.flowStarted a ∉ (cli o env).events) ∨
    ∃ ev tag ist, cli o env = startFlow o env ev tag ist ∧
      (∀ a, Event.flowStarted a ∉ ev) ∧
      ((o.initial_state_json = none ∧ ist = none) ∨
        (∃ p s, o.initial_state_json = some p ∧ env.readState p = Except.ok s ∧
          ist = some s)) ∧
      ((o.last_run = false ∧ tag = o.run_tag) ∨
        (o.last_run = true ∧ ∃ sel, selectLatest env.runs 0 none = some sel ∧
          tag = some (basename sel))) := by
  unfold cli
  split
  · left; intro a ha; simp at ha
  · split
    · left; intro a ha; simp at ha
    · left; intro a ha; simp at ha
    · split
      · exact afterFlow_shape o env _ (by intro a ha; simp at ha)
      · split
        · exact afterFlow_shape o env _ (by intro a ha; simp at ha)
        · left; intro a ha; simp at ha

theorem cli_reach_start (o : Opts) (env : Env) (args : StartArgs)
    (h : Event.flowStarted args ∈ (cli o env).events) :
    args.frm = o.frm ∧ args.to_step = o.to_step ∧
    (cli o env).exitCode = startExit env.startResult ∧
    (∀ m, env.startResult = StartOutcome.flowException m →
      unexpectedErrMsg m ∈ (cli o env).errs) ∧
    (∀ m, env.startResult = StartOutcome.flowError m →
      expectedErrMsg m ∈ (cli o env).errs) ∧
    (o.initial_state_json = none → args.with_initial_state = none) ∧
    (∀ p s, o.initial_state_json = some p → env.readState p = Except.ok s →
      args.with_initial_state = some s) ∧
    (o.last_run = false → args.tag = o.run_tag) := by
  rcases cli_shape o env with hleft | ⟨ev, tag, ist, heq, hev, hstate, htag⟩
  · exact absurd h (hleft args)
  · rw [heq] at h ⊢
    rw [startFlow_events] at h
    rcases List.mem_append.mp h with hin | hin
    · exact absurd hin (hev args)
    · simp only [List.mem_singleton, Event.flowStarted.injEq] at hin
      subst hin
      refine ⟨rfl, rfl, startFlow_exitCode o env ev tag ist, ?_, ?_, ?_, ?_, ?_⟩
      · intro m hm
        rw [startFlow_errs, hm]
        simp
      · intro m hm
        rw [startFlow_errs, hm]
        simp
      · intro hj
        rcases hstate with ⟨_, hist⟩ | ⟨p, s, hp, _, _⟩
        · simp [hist]
        · rw [hj] at hp; cases hp
      · intro p s hp hr
        rcases hstate with ⟨hj, _⟩ | ⟨p2, s2, hp2, hr2, hist⟩
        · rw [hj] at hp; cases hp
        · rw [hp] at hp2
          injection hp2 with hp2
          subst hp2
          rw [hr] at hr2
          injection hr2 with hr2
          simp [hist, hr2]
      · intro hl
        rcases htag with ⟨_, ht⟩ | ⟨hl2, _⟩
        · simp [ht]
        · rw [hl] at hl2; cases hl2

theorem startFlow_mem_of_mem (o : Opts) (env : Env) (ev : List Event)
    (tag : Option String) (ist : Option StateV) (e : Event) (he : e ∈ ev) :
    e ∈ (startFlow o env ev tag ist).events := by
  rw [startFlow_events]
  exact List.mem_append_left _ he

theorem afterState_mem_of_mem (o : Opts) (env : Env) (ev : List Event)
    (ist : Option StateV) (e : Event) (he : e ∈ ev) :
    e ∈ (afterState o env ev ist).events := by
  unfold afterState
  split
  · split
    · simpa using Or.inl he
    · exact startFlow_mem_of_mem _ _ _ _ _ _ (List.mem_append_left _ he)
  · exact startFlow_mem_of_mem _ _ _ _ _ _ he

theorem afterFlow_mem_of_mem (o : Opts) (env : Env) (ev : List Event) (e : Event)
    (he : e ∈ ev) :
    e ∈ (afterFlow o env ev).events := by
  unfold afterFlow
  split
  · exact afterState_mem_of_mem _ _ _ _ _ (List.mem_append_left _ he)
  · split
    · exact afterState_mem_of_mem _ _ _ _ _ (List.mem_append_left _ he)
    · simpa using Or.inl he

theorem startFlow_notmem (o : Opts) (env : Env) (ev : List Event)
    (tag : Option String) (ist : Option StateV) (e : Event)
    (he : e ∉ ev) (hne : ∀ a, e ≠ Event.flowStarted a) :
    e ∉ (startFlow o env ev tag ist).events := by
  rw [startFlow_events]
  intro h
  rcases List.mem_append.mp h with h | h
  · exact he h
  · simp only [List.mem_singleton] at h
    exact hne _ h

theorem afterState_notmem (o : Opts) (env : Env) (ev : List Event)
    (ist : Option StateV) (e : Event) (he : e ∉ ev)
    (hne1 : ∀ a, e ≠ Event.flowStarted a) (hne2 : o.last_run = true → e ≠ Event.runsEnumerated) :
    e ∉ (afterState o env ev ist).events := by
  unfold afterState
  split
  next hl =>
    have hne2 := hne2 hl
    split
    · intro h
      rcases List.mem_append.mp h with h | h
      · exact he h
      · simp only [List.mem_singleton] at h
        exact hne2 h
    · refine startFlow_notmem _ _ _ _ _ _ ?_ hne1
      intro h
      rcases List.mem_append.mp h with h | h
      · exact he h
      · simp only [List.mem_singleton] at h
        exact hne2 h
  next hl =>
    exact startFlow_notmem _ _ _ _ _ _ he hne1

theorem afterFlow_notmem (o : Opts) (env : Env) (ev : List Event) (e : Event)
    (he : e ∉ ev)
    (hne1 : ∀ a, e ≠ Event.flowStarted a)
    (hne2 : o.last_run = true → e ≠ Event.runsEnumerated)
    (hne3 : e ≠ Event.flowInstantiated)
    (hne4 : ∀ p, o.initial_state_json = some p → e ≠ Event.stateFileRead p) :
    e ∉ (afterFlow o env ev).events := by
  unfold afterFlow
  split
  next hj =>
    refine afterState_notmem _ _ _ _ _ ?_ hne1 hne2
    intro h
    rcases List.mem_append.mp h with h | h
    · exact he h
    · simp only [List.mem_singleton] at h
      exact hne3 h
  next path hj =>
    have hne4 := hne4 path hj
    split
    next s hr =>
      refine afterState_notmem _ _ _ _ _ ?_ hne1 hne2
      intro h
      rcases List.mem_append.mp h with h | h
      · exact he h
      · rcases List.mem_cons.mp h with h | h
        · exact hne3 h
        · simp only [List.mem_singleton] at h
          exact hne4 h
    next m hr =>
      intro h
      rcases List.mem_append.mp h with h | h
      · exact he h
      · rcases List.mem_cons.mp h with h | h
        · exact hne3 h
        · simp only [List.mem_singleton] at h
          exact hne4 h

theorem cli_no_stateFileRead (o : Opts) (env : Env)
    (hj : o.initial_state_json = none) :
    ∀ p, Event.stateFileRead p ∉ (cli o env).events := by
  intro p
  unfold cli
  split
  · simp
  · split
    · simp
    · simp
    · split
      · refine afterFlow_notmem _ _ _ _ (by simp) (by simp) (by simp) (by simp) ?_
        intro q hq
        rw [hj] at hq
        cases hq
      · split
        · refine afterFlow_notmem _ _ _ _ (by simp) (by simp) (by simp) (by simp) ?_
          intro q hq
          rw [hj] at hq
          cases hq
        · simp

theorem cli_no_runsEnumerated (o : Opts) (env : Env) (hl : o.last_run = false) :
    Event.runsEnumerated ∉ (cli o env).events := by
  unfold cli
  split
  · simp
  · split
    · simp
    · simp
    · split
      · refine afterFlow_notmem _ _ _ _ (by simp) (by simp) ?_ (by simp) (by simp)
        intro h
        rw [hl] at h
        cases h
      · split
        · refine afterFlow_notmem _ _ _ _ (by simp) (by simp) ?_ (by simp) (by simp)
          intro h
          rw [hl] at h
          cases h
        · simp

theorem cli_no_registryLookup_of_steps (o : Opts) (env : Env) (cfg : Config)
    (dd : String) (l : List String)
    (hguard : (o.run_tag.isSome && o.last_run) = false)
    (hc : env.configLoad = LoadResult.ok cfg dd)
    (hd : flow_description o.flow_name cfg.meta_flow = FlowDesc.steps l) :
    ∀ s, Event.registryLookup s ∉ (cli o env).events := by
  intro s
  unfold cli
  rw [hguard, if_neg (by simp), hc]
  simp only [hd]
  exact afterFlow_notmem _ _ _ _ (by simp) (by simp) (by simp) (by simp) (by simp)

theorem stateOkB_elim (o : Opts) (env : Env) (hs : stateOkB o env = true) :
    o.initial_state_json = none ∨
    ∃ p s, o.initial_state_json = some p ∧ env.readState p = Except.ok s := by
  unfold stateOkB at hs
  split at hs
  next hj => exact Or.inl hj
  next p hj =>
    split at hs
    next s hr => exact Or.inr ⟨p, s, hj, hr⟩
    next m hr => cases hs

theorem flowResolvesB_elim (o : Opts) (env : Env) (cfg : Config)
    (hf : flowResolvesB o env cfg = true) :
    (∃ l, flow_description o.flow_name cfg.meta_flow = FlowDesc.steps l) ∨
    (∃ s F, flow_description o.flow_name cfg.meta_flow = FlowDesc.name s ∧
      factory_get env.registry s = some F) := by
  unfold flowResolvesB at hf
  split at hf
  next l hd => exact Or.inl ⟨l, hd⟩
  next s hd =>
    cases hfg : factory_get env.registry s with
    | none => rw [hfg] at hf; simp at hf
    | some F => exact Or.inr ⟨s, F, hd, hfg⟩

theorem cli_eq_afterFlow (o : Opts) (env : Env) (cfg : Config) (dd : String)
    (hguard : (o.run_tag.isSome && o.last_run) = false)
    (hc : env.configLoad = LoadResult.ok cfg dd)
    (hf : flowResolvesB o env cfg = true) :
    ∃ ev, cli o env = afterFlow o env ev ∧ Event.configLoadAttempt ∈ ev := by
  unfold cli
  rw [hguard, if_neg (by simp), hc]
  rcases flowResolvesB_elim o env cfg hf with ⟨l, hd⟩ | ⟨s, F, hd, hfg⟩
  · refine ⟨[Event.configLoadAttempt, Event.makeSequentialFlow l], ?_, by simp⟩
    simp only [hd]
  · refine ⟨[Event.configLoadAttempt, Event.registryLookup s], ?_, by simp⟩
    simp only [hd, hfg]

theorem afterFlow_stateFails (o : Opts) (env : Env) (ev : List Event) (p m : String)
    (hj : o.initial_state_json = some p) (hr : env.readState p = Except.error m) :
    (afterFlow o env ev).exitCode = 1 ∧ (afterFlow o env ev).uncaught = some m := by
  unfold afterFlow
  rw [hj]
  simp [hr]

theorem afterState_lastrun_sel (o : Opts) (env : Env) (ev : List Event)
    (ist : Option StateV) (sel : String)
    (hl : o.last_run = true) (hsel : selectLatest env.runs 0 none = some sel) :
    afterState o env ev ist =
      startFlow o env (ev ++ [Event.runsEnumerated]) (some (basename sel)) ist := by
  unfold afterState
  rw [hl, hsel]
  rfl

theorem afterState_lastrun_none (o : Opts) (env : Env) (ev : List Event)
    (ist : Option StateV)
    (hl : o.last_run = true) (hsel : selectLatest env.runs 0 none = none) :
    afterState o env ev ist =
      ⟨ev ++ [Event.runsEnumerated], [noRunsMsg], [], [], none, 1⟩ := by
  unfold afterState
  rw [hl, hsel]
  rfl

theorem afterFlow_to_afterState (o : Opts) (env : Env) (ev : List Event)
    (hs : stateOkB o env = true) :
    ∃ ev2 ist, afterFlow o env ev = afterState o env ev2 ist := by
  rcases stateOkB_elim o env hs with hj | ⟨p, s, hj, hr⟩
  · refine ⟨ev ++ [Event.flowInstantiated], none, ?_⟩
    unfold afterFlow
    rw [hj]
  · refine ⟨ev ++ [Event.flowInstantiated, Event.stateFileRead p], some s, ?_⟩
    unfold afterFlow
    rw [hj]
    simp only [hr]

theorem afterFlow_lastrun_eq (o : Opts) (env : Env) (ev : List Event) (sel : String)
    (hl : o.last_run = true) (hs : stateOkB o env = true)
    (hsel : selectLatest env.runs 0 none = some sel) :
    ∃ ev2 ist, afterFlow o env ev = startFlow o env ev2 (some (basename sel)) ist := by
  obtain ⟨ev2, ist, heq⟩ := afterFlow_to_afterState o env ev hs
  exact ⟨ev2 ++ [Event.runsEnumerated], ist,
    heq.trans (afterState_lastrun_sel o env ev2 ist sel hl hsel)⟩

theorem afterFlow_lastrun_noruns (o : Opts) (env : Env) (ev : List Event)
    (hl : o.last_run = true) (hs : stateOkB o env = true)
    (hsel : selectLatest env.runs 0 none = none) :
    (afterFlow o env ev).errs = [noRunsMsg] ∧ (afterFlow o env ev).exitCode = 1 := by
  obtain ⟨ev2, ist, heq⟩ := afterFlow_to_afterState o env ev hs
  rw [heq, afterState_lastrun_none o env ev2 ist hl hsel]
  exact ⟨rfl, rfl⟩

theorem cli_lastrun_eq (o : Opts) (env : Env) (cfg : Config) (dd : String)
    (sel : String)
    (hg : o.run_tag = none) (hl : o.last_run = true)
    (hc : env.configLoad = LoadResult.ok cfg dd)
    (hf : flowResolvesB o env cfg = true) (hs : stateOkB o env = true)
    (hsel : selectLatest env.runs 0 none = some sel) :
    ∃ ev ist, cli o env = startFlow o env ev (some (basename sel)) ist := by
  obtain ⟨ev, heq, -⟩ :=
    cli_eq_afterFlow o env cfg dd (by rw [hg]; rfl) hc hf
  obtain ⟨ev2, ist, heq2⟩ := afterFlow_lastrun_eq o env ev sel hl hs hsel
  exact ⟨ev2, ist, heq.trans heq2⟩

theorem cli_lastrun_noruns (o : Opts) (env : Env) (cfg : Config) (dd : String)
    (hg : o.run_tag = none) (hl : o.last_run = true)
    (hc : env.configLoad = LoadResult.ok cfg dd)
    (hf : flowResolvesB o env cfg = true) (hs : stateOkB o env = true)
    (hsel : selectLatest env.runs 0 none = none) :
    (cli o env).errs = [noRunsMsg] ∧ (cli o env).exitCode = 1 := by
  obtain ⟨ev, heq, -⟩ :=
    cli_eq_afterFlow o env cfg dd (by rw [hg]; rfl) hc hf
  rw [heq]
  exact afterFlow_lastrun_noruns o env ev hl hs hsel

theorem noRunsMsg_ne_unexpected (m : String) : noRunsMsg ≠ unexpectedErrMsg m :=
  ne_of_shorter_than_prefix _ _ m (by decide)

theorem noRunsMsg_ne_expected (m : String) : noRunsMsg ≠ expectedErrMsg m :=
  ne_of_shorter_than_prefix _ _ m (by decide)

theorem noRunsMsg_ne_quit : noRunsMsg ≠ quitMsg := by decide

/-- C1: for every invocation in which `flow.start` is reached, if it raises
an expected pipeline failure (`FlowError` with message `m`) the process
exits with code 2 and the diagnostic describes that specific failure, while
if it raises an unexpected internal engine error (`FlowException` with
message `m`) the process exits with code 1 and the message is flagged as
unexpected — the two outcomes are distinguishable by exit code. -/
theorem dispatch_failure_exit_codes (o : Opts) (env : Env) (args : StartArgs)
    (h : Event.flowStarted args ∈ (cli o env).events) :
    (∀ m, env.startResult = StartOutcome.flowError m →
      (cli o env).exitCode = 2 ∧ expectedErrMsg m ∈ (cli o env).errs) ∧
    (∀ m, env.startResult = StartOutcome.flowException m →
      (cli o env).exitCode = 1 ∧ unexpectedErrMsg m ∈ (cli o env).errs) := by
  obtain ⟨-, -, hexit, hexc, herr, -, -, -⟩ := cli_reach_start o env args h
  refine ⟨fun m hm => ⟨?_, herr m hm⟩, fun m hm => ⟨?_, hexc m hm⟩⟩
  · rw [hexit, hm]; rfl
  · rw [hexit, hm]; rfl

theorem dispatch_failure_exit_codes_witness :
    (cli oBase envFlowError).exitCode = 2 ∧
      expectedErrMsg "step failed" ∈ (cli oBase envFlowError).errs :=
  (dispatch_failure_exit_codes oBase envFlowError
    ⟨none, none, none, none⟩ (by decide)).1 "step failed" rfl

/-- C2: when both a run tag and the last-run flag are set, the process exits
with code 1 before any configuration file is read: the event trace is empty,
so no configuration loading, flow resolution, state loading or run
resolution occurs. -/
theorem mutual_exclusion_first (o : Opts) (env : Env) (t : String)
    (h1 : o.run_tag = some t) (h2 : o.last_run = true) :
    (cli o env).exitCode = 1 ∧ (cli o env).errs = [mutexMsg] ∧
      (cli o env).events = [] := by
  unfold cli
  rw [h1, h2]
  exact ⟨rfl, rfl, rfl⟩

theorem mutual_exclusion_first_witness :
    (cli oBoth envBase).exitCode = 1 ∧ (cli oBoth envBase).errs = [mutexMsg] ∧
      (cli oBoth envBase).events = [] :=
  mutual_exclusion_first oBoth envBase "mytag" rfl rfl

/-- C3 counterexample: a `runs/` directory with a single entry (so the
modification times are trivially distinct) whose mtime is 0.  The claim
requires the entry with the strictly greatest modification time to be
selected, but the scan (strict comparison against the initial 0) selects
nothing: the invocation reports no runs found and exits 1 without ever
invoking `flow.start`. -/
theorem lastrun_zero_mtime_counterexample :
    cli oLast envZeroMtime =
      ⟨[Event.configLoadAttempt, Event.registryLookup "Classic",
        Event.flowInstantiated, Event.runsEnumerated],
        [noRunsMsg], [], [], none, 1⟩ ∧
      envZeroMtime.runs = [("designs/spm/runs/RUN_A", 0)] := by
  decide

/-- C3 (amended): provided the greatest modification time among the `runs/`
entries is strictly positive, last-run resolution selects the entry with the
strictly greatest modification time whenever the times are distinct — stated
order-independently — and when several entries share the maximum time the
first one encountered during enumeration is selected. -/
theorem lastrun_selects_latest (o : Opts) (env : Env) (cfg : Config) (dd : String)
    (hg : o.run_tag = none) (hl : o.last_run = true)
    (hc : env.configLoad = LoadResult.ok cfg dd)
    (hf : flowResolvesB o env cfg = true) (hs : stateOkB o env = true) :
    (∀ p m, (p, m) ∈ env.runs → 0 < m →
      (∀ q ∈ env.runs, q ≠ (p, m) → q.2 < m) →
      ∃ args, Event.flowStarted args ∈ (cli o env).events ∧
        args.tag = some (basename p)) ∧
    (∀ pr, env.runs.find? (fun q => q.2 == maxTime env.runs) = some pr →
      0 < maxTime env.runs →
      ∃ args, Event.flowStarted args ∈ (cli o env).events ∧
        args.tag = some (basename pr.1)) := by
  constructor
  · intro p m hmem hpos hdist
    have hmax : maxTime env.runs = m := maxTime_eq_of_unique_max _ _ _ hmem hdist
    have hfind : env.runs.find? (fun q => q.2 == m) = some (p, m) :=
      find?_eq_of_unique_max _ _ _ hmem hdist
    have hsel : selectLatest env.runs 0 none = some p := by
      rw [selectLatest_eq env.runs 0 none, if_pos (by omega), hmax, hfind]
      rfl
    obtain ⟨ev, ist, heq⟩ := cli_lastrun_eq o env cfg dd p hg hl hc hf hs hsel
    rw [heq]
    refine ⟨⟨some (basename p), o.frm, o.to_step, ist⟩, ?_, rfl⟩
    rw [startFlow_events]
    simp
  · intro pr hfind hpos
    have hsel : selectLatest env.runs 0 none = some pr.1 := by
      rw [selectLatest_eq env.runs 0 none, if_pos hpos, hfind]
      rfl
    obtain ⟨ev, ist, heq⟩ :=
      cli_lastrun_eq o env cfg dd pr.1 hg hl hc hf hs hsel
    rw [heq]
    refine ⟨⟨some (basename pr.1), o.frm, o.to_step, ist⟩, ?_, rfl⟩
    rw [startFlow_events]
    simp

theorem lastrun_selects_latest_witness :
    ∃ args, Event.flowStarted args ∈ (cli oLast envBase).events ∧
      args.tag = some (basename "designs/spm/runs/RUN_B") :=
  (lastrun_selects_latest oLast envBase ⟨FlowDesc.name "Classic"⟩ "designs/spm"
    rfl rfl rfl (by decide) (by decide)).1
    "designs/spm/runs/RUN_B" 9 (by decide) (by decide) (by decide)

/-- C4 counterexample: run directories exist, yet the invocation exits 1
with the no-runs-found diagnostic, because no entry has a strictly positive
modification time — refuting the claimed only-if direction (error iff no
run directories exist). -/
theorem lastrun_noruns_counterexample :
    (cli oLast envTwoZero).exitCode = 1 ∧
      noRunsMsg ∈ (cli oLast envTwoZero).errs ∧
      envTwoZero.runs ≠ [] := by
  decide

/-- C4 (amended): an invocation with the last-run flag (and no run tag)
exits with code 1 and the no-runs-found diagnostic if and only if no entry
of `design_root/runs/` has a strictly positive modification time (in
particular, whenever the directory is empty). -/
theorem lastrun_noruns_iff (o : Opts) (env : Env) (cfg : Config) (dd : String)
    (hg : o.run_tag = none) (hl : o.last_run = true)
    (hc : env.configLoad = LoadResult.ok cfg dd)
    (hf : flowResolvesB o env cfg = true) (hs : stateOkB o env = true) :
    ((cli o env).exitCode = 1 ∧ noRunsMsg ∈ (cli o env).errs) ↔
      maxTime env.runs = 0 := by
  constructor
  · rintro ⟨hexit, hmsg⟩
    by_contra hmax
    have hpos : 0 < maxTime env.runs := Nat.pos_of_ne_zero hmax
    obtain ⟨q, hq, hq2⟩ := exists_mem_maxTime env.runs hpos
    have hfs : (env.runs.find? (fun r => r.2 == maxTime env.runs)).isSome := by
      rw [List.find?_isSome]
      exact ⟨q, hq, by simp [hq2]⟩
    obtain ⟨pr, hfind⟩ := Option.isSome_iff_exists.mp hfs
    have hsel : selectLatest env.runs 0 none = some pr.1 := by
      rw [selectLatest_eq env.runs 0 none, if_pos hpos, hfind]
      rfl
    obtain ⟨ev, ist, heq⟩ :=
      cli_lastrun_eq o env cfg dd pr.1 hg hl hc hf hs hsel
    rw [heq, startFlow_errs] at hmsg
    cases hres : env.startResult with
    | ok => rw [hres] at hmsg; simp at hmsg
    | flowException m =>
      rw [hres] at hmsg
      simp only [List.mem_cons, List.mem_singleton, List.not_mem_nil] at hmsg
      rcases hmsg with h | h | h
      · exact noRunsMsg_ne_unexpected m h
      · exact noRunsMsg_ne_quit h
      · exact h
    | flowError m =>
      rw [hres] at hmsg
      simp only [List.mem_cons, List.mem_singleton, List.not_mem_nil] at hmsg
      rcases hmsg with h | h | h
      · exact noRunsMsg_ne_expected m h
      · exact noRunsMsg_ne_quit h
      · exact h
  · intro hmax
    have hsel : selectLatest env.runs 0 none = none := by
      rw [selectLatest_eq env.runs 0 none, if_neg (by omega)]
    obtain ⟨herrs, hexit⟩ := cli_lastrun_noruns o env cfg dd hg hl hc hf hs hsel
    exact ⟨hexit, by rw [herrs]; simp⟩

theorem lastrun_noruns_iff_witness :
    ((cli oLast envEmptyRuns).exitCode = 1 ∧
        noRunsMsg ∈ (cli oLast envEmptyRuns).errs) ↔
      maxTime envEmptyRuns.runs = 0 :=
  lastrun_noruns_iff oLast envEmptyRuns ⟨FlowDesc.name "Classic"⟩ "designs/spm"
    rfl rfl rfl (by decide) (by decide)

theorem cli_named_flow_lookup (o : Opts) (env : Env) (cfg : Config) (dd : String)
    (n : String)
    (hguard : (o.run_tag.isSome && o.last_run) = false)
    (hc : env.configLoad = LoadResult.ok cfg dd)
    (hn : o.flow_name = some n) (hne : n ≠ "") :
    flow_description o.flow_name cfg.meta_flow = FlowDesc.name n ∧
    Event.registryLookup n ∈ (cli o env).events := by
  have hd : flow_description o.flow_name cfg.meta_flow = FlowDesc.name n := by
    unfold flow_description
    rw [hn]
    simp [hne]
  refine ⟨hd, ?_⟩
  unfold cli
  rw [hguard, if_neg (by simp), hc]
  simp only [hd]
  cases hfg : factory_get env.registry n with
  | none => simp only [hfg]; simp
  | some F =>
    simp only [hfg]
    exact afterFlow_mem_of_mem _ _ _ _ (by simp)

/-- C5 counterexample: a full invocation that supplies an explicit flow name
— the empty string, which the option parser admits here because the empty
string is among the registered names — and that runs to completion (exit
code 0), yet flow resolution uses the flow declared in the configuration
metadata: the registry is consulted for `Classic` and never for the supplied
string.  This refutes the claim that a supplied explicit name is always the
source used for flow resolution. -/
theorem explicit_flow_empty_counterexample :
    oEmptyFlow.flow_name = some "" ∧
    clickChoiceFlow envEmptyReg.registry "" = some "" ∧
    Event.registryLookup "Classic" ∈ (main oEmptyFlow envEmptyReg).events ∧
    Event.registryLookup "" ∉ (main oEmptyFlow envEmptyReg).events ∧
    (main oEmptyFlow envEmptyReg).exitCode = 0 := by
  decide

/-- C5 (amended): a non-empty explicit flow name supplied on the command
line is the source used for flow resolution; when no explicit name is
supplied, resolution falls back to the flow declaration embedded in the
configuration metadata.  A supplied empty string — admitted by the option
parser only when the empty string is itself a registered flow name — is
falsy in Python and also falls back.  The last clause states the non-empty
case for the full entry point: when the parser accepts the supplied name,
the registry is consulted for the accepted (registered) spelling. -/
theorem explicit_flow_priority (o : Opts) (env : Env) (cfg : Config) (dd : String)
    (hguard : (o.run_tag.isSome && o.last_run) = false)
    (hc : env.configLoad = LoadResult.ok cfg dd) :
    (∀ n, o.flow_name = some n → n ≠ "" →
      flow_description o.flow_name cfg.meta_flow = FlowDesc.name n ∧
      Event.registryLookup n ∈ (cli o env).events) ∧
    (o.flow_name = none →
      flow_description o.flow_name cfg.meta_flow = cfg.meta_flow) ∧
    (∀ n n2, o.flow_name = some n → clickChoiceFlow env.registry n = some n2 →
      n2 ≠ "" → Event.registryLookup n2 ∈ (main o env).events) := by
  refine ⟨fun n hn hne => cli_named_flow_lookup o env cfg dd n hguard hc hn hne,
    ?_, ?_⟩
  · intro hn
    unfold flow_description
    rw [hn]
  · intro n n2 hn hck hne
    unfold main
    rw [hn]
    simp only [hck]
    exact (cli_named_flow_lookup { o with flow_name := some n2 } env cfg dd n2
      hguard hc rfl hne).2

theorem explicit_flow_priority_witness :
    flow_description oFlow.flow_name
        ((⟨FlowDesc.name "Classic"⟩ : Config).meta_flow) =
      FlowDesc.name "clAssIc" ∧
    Event.registryLookup "clAssIc" ∈ (cli oFlow envBase).events :=
  (explicit_flow_priority oFlow envBase ⟨FlowDesc.name "Classic"⟩
    "designs/spm" rfl rfl).1 "clAssIc" rfl (by decide)

/-- C6: when the chosen flow description is a sequence of step identifiers
rather than a string, flow resolution builds the ad-hoc sequential flow from
exactly that list in that order, and no flow-registry lookup occurs. -/
theorem adhoc_flow_no_registry (o : Opts) (env : Env) (cfg : Config) (dd : String)
    (l : List String)
    (hguard : (o.run_tag.isSome && o.last_run) = false)
    (hc : env.configLoad = LoadResult.ok cfg dd)
    (hd : flow_description o.flow_name cfg.meta_flow = FlowDesc.steps l) :
    Event.makeSequentialFlow l ∈ (cli o env).events ∧
    ∀ s, Event.registryLookup s ∉ (cli o env).events := by
  refine ⟨?_, cli_no_registryLookup_of_steps o env cfg dd l hguard hc hd⟩
  unfold cli
  rw [hguard, if_neg (by simp), hc]
  simp only [hd]
  exact afterFlow_mem_of_mem _ _ _ _ (by simp)

theorem adhoc_flow_no_registry_witness :
    Event.makeSequentialFlow ["Synthesis", "Floorplan"] ∈
        (cli oBase envSteps).events ∧
      ∀ s, Event.registryLookup s ∉ (cli oBase envSteps).events :=
  adhoc_flow_no_registry oBase envSteps
    ⟨FlowDesc.steps ["Synthesis", "Floorplan"]⟩ "designs/spm"
    ["Synthesis", "Floorplan"] rfl rfl rfl

/-- C7 counterexample: an explicit `--flow` value that matches no registered
flow name is rejected by the option parser with the usage-error exit code 2
and the invalid-value diagnostic — not, as claimed, exit code 1 with the
unknown-flow diagnostic. -/
theorem unknown_flow_exit_counterexample :
    (main oUnknownFlow envBase).exitCode = 2 ∧
    (main oUnknownFlow envBase).exitCode ≠ 1 ∧
    unknownFlowMsg "Funflow" ∉ (main oUnknownFlow envBase).errs ∧
    invalidChoiceMsg "Funflow" ∈ (main oUnknownFlow envBase).errs := by
  decide

/-- C7 (amended): an explicit `--flow NAME` that does not case-insensitively
match any registered flow name is rejected by the CLI parser with exit code
2 and an invalid-value diagnostic naming exactly that string; an unknown
flow name arriving through the configuration metadata instead causes exit
code 1 with the unknown-flow diagnostic naming exactly that string. -/
theorem unknown_flow_diagnostics :
    (∀ o env s, (o : Opts).flow_name = some s →
      (∀ r ∈ (env : Env).registry, toLowerStr r ≠ toLowerStr s) →
      (main o env).exitCode = 2 ∧ invalidChoiceMsg s ∈ (main o env).errs) ∧
    (∀ o env cfg dd s, ((o : Opts).run_tag.isSome && o.last_run) = false →
      o.flow_name = none → (env : Env).configLoad = LoadResult.ok cfg dd →
      (cfg : Config).meta_flow = FlowDesc.name s →
      (∀ r ∈ env.registry, toLowerStr r ≠ toLowerStr s) →
      (cli o env).exitCode = 1 ∧ unknownFlowMsg s ∈ (cli o env).errs) := by
  constructor
  · intro o env s hn hmiss
    have hck : clickChoiceFlow env.registry s = none := by
      unfold clickChoiceFlow
      rw [List.find?_eq_none]
      intro r hr
      simp [hmiss r hr]
    unfold main
    rw [hn]
    simp only [hck]
    exact ⟨by simp, by simp⟩
  · intro o env cfg dd s hguard hn hc hm hmiss
    have hd : flow_description o.flow_name cfg.meta_flow = FlowDesc.name s := by
      unfold flow_description
      rw [hn, hm]
    have hfg : factory_get env.registry s = none := by
      unfold factory_get
      rw [List.find?_eq_none]
      intro r hr
      simp [hmiss r hr]
    unfold cli
    rw [hguard, if_neg (by simp), hc]
    simp only [hd, hfg]
    exact ⟨by simp, by simp⟩

theorem unknown_flow_diagnostics_witness :
    ((main oUnknownFlow envSteps).exitCode = 2 ∧
      invalidChoiceMsg "Funflow" ∈ (main oUnknownFlow envSteps).errs) ∧
    ((cli oBase envMetaUnknown).exitCode = 1 ∧
      unknownFlowMsg "Coolflow" ∈ (cli oBase envMetaUnknown).errs) :=
  ⟨unknown_flow_diagnostics.1 oUnknownFlow envSteps "Funflow" rfl (by decide),
    unknown_flow_diagnostics.2 oBase envMetaUnknown ⟨FlowDesc.name "Coolflow"⟩
      "designs/spm" "Coolflow" rfl rfl rfl rfl (by decide)⟩

/-- C8: with no initial-state path supplied, the seed state passed to
`flow.start` is absent and no state file is read; with a path supplied, the
deserialized file content is what is passed; an unreadable or malformed file
is an uncaught exception terminating the process with exit code 1. -/
theorem initial_state_loading (o : Opts) (env : Env) :
    (∀ args, Event.flowStarted args ∈ (cli o env).events →
      (o.initial_state_json = none → args.with_initial_state = none) ∧
      (∀ p s, o.initial_state_json = some p → env.readState p = Except.ok s →
        args.with_initial_state = some s)) ∧
    (o.initial_state_json = none →
      ∀ p, Event.stateFileRead p ∉ (cli o env).events) ∧
    (∀ p m cfg dd, o.initial_state_json = some p →
      env.readState p = Except.error m →
      (o.run_tag.isSome && o.last_run) = false →
      env.configLoad = LoadResult.ok cfg dd → flowResolvesB o env cfg = true →
      (cli o env).exitCode = 1 ∧ (cli o env).uncaught = some m) := by
  refine ⟨?_, fun hj => cli_no_stateFileRead o env hj, ?_⟩
  · intro args h
    obtain ⟨-, -, -, -, -, hnone, hsome, -⟩ := cli_reach_start o env args h
    exact ⟨hnone, hsome⟩
  · intro p m cfg dd hj hr hguard hc hf
    obtain ⟨ev, heq, -⟩ := cli_eq_afterFlow o env cfg dd hguard hc hf
    rw [heq]
    exact afterFlow_stateFails o env ev p m hj hr

theorem initial_state_loading_witness :
    (cli oState envBadState).exitCode = 1 ∧
      (cli oState envBadState).uncaught = some "bad json" :=
  (initial_state_loading oState envBadState).2.2 "state.json" "bad json"
    ⟨FlowDesc.name "Classic"⟩ "designs/spm" rfl rfl rfl rfl (by decide)

/-- C9: a user-supplied run tag (with the last-run flag unset) is passed to
`flow.start` exactly as supplied, and the run directory is never enumerated
— no existence check is performed by this component. -/
theorem runtag_passthrough (o : Opts) (env : Env) (t : String)
    (h1 : o.run_tag = some t) (h2 : o.last_run = false) :
    (∀ args, Event.flowStarted args ∈ (cli o env).events →
      args.tag = some t) ∧
    Event.runsEnumerated ∉ (cli o env).events := by
  refine ⟨?_, cli_no_runsEnumerated o env h2⟩
  intro args h
  obtain ⟨-, -, -, -, -, -, -, htag⟩ := cli_reach_start o env args h
  rw [htag h2, h1]

theorem runtag_passthrough_witness :
    (∀ args, Event.flowStarted args ∈ (cli oTag envBase).events →
      args.tag = some "my_run") ∧
    Event.runsEnumerated ∉ (cli oTag envBase).events :=
  runtag_passthrough oTag envBase "my_run" rfl rfl

/-- C10: when last-run resolution selects an entry, the run identifier
passed to `flow.start` is the basename of the selected path — the final
path component alone, never the full path under `design_root/runs/`. -/
theorem lastrun_tag_is_basename (o : Opts) (env : Env) (cfg : Config)
    (dd d nm : String)
    (hg : o.run_tag = none) (hl : o.last_run = true)
    (hc : env.configLoad = LoadResult.ok cfg dd)
    (hf : flowResolvesB o env cfg = true) (hs : stateOkB o env = true)
    (hsel : selectLatest env.runs 0 none = some (d ++ "/" ++ nm))
    (hnm : ∀ c ∈ nm.data, c ≠ '/') :
    ∃ args, Event.flowStarted args ∈ (cli o env).events ∧
      args.tag = some nm ∧ nm ≠ d ++ "/" ++ nm := by
  obtain ⟨ev, ist, heq⟩ := cli_lastrun_eq o env cfg dd _ hg hl hc hf hs hsel
  rw [heq]
  refine ⟨⟨some (basename (d ++ "/" ++ nm)), o.frm, o.to_step, ist⟩, ?_, ?_,
    ne_basename_concat d nm⟩
  · rw [startFlow_events]
    simp
  · simp [basename_concat d nm hnm]

theorem lastrun_tag_is_basename_witness :
    ∃ args, Event.flowStarted args ∈ (cli oLast envBase).events ∧
      args.tag = some "RUN_B" ∧ "RUN_B" ≠ "designs/spm/runs" ++ "/" ++ "RUN_B" :=
  lastrun_tag_is_basename oLast envBase ⟨FlowDesc.name "Classic"⟩ "designs/spm"
    "designs/spm/runs" "RUN_B" rfl rfl rfl (by decide) (by decide) (by decide)
    (by decide)

end OpenLane
